import Mathlib

/-!
Verification development for the Veillanalyse network analyzer
(`src/analyzers/network_analyzer.py`).

The Python module builds two directed graphs from a database snapshot
(a content propagation graph and a source relationship graph), ranks
superspreader sources, detects communities and coordinated behavior,
and aggregates network statistics.  We give a shallow embedding of the
relevant data model and operations and prove the stated properties.

Conventions of the embedding:
* database ids are strings (UUIDs in the original);
* timestamps are integers (seconds since an arbitrary epoch), so the
  hour bucket of the original strftime truncation is floor division
  by 3600;
* Python floats are modelled by rationals;
* nullable columns are `Option`s; Python truthiness on an optional
  string is "present and nonempty", and on an optional float it is
  "present and nonzero";
* library calls that the code wraps in try/except (pagerank,
  betweenness, Louvain, the connectivity check) are passed in as
  `Except Unit` values so the fallback paths are explicit.
-/

namespace Veillanalyse

/-- A row of the `sources` table (the columns the analyzer reads). -/
structure Source where
  id : String
  name : String
  source_type : String
  language : Option String
  is_doppelganger : Bool
  is_amplifier : Bool
  is_active : Bool
deriving DecidableEq, Repr

/-- A row of the `content` table (the columns the analyzer reads). -/
structure Content where
  id : String
  source_id : Option String
  published_at : Option Int
deriving DecidableEq, Repr

/-- A row of the `propagation` table (the columns the analyzer reads). -/
structure Propagation where
  source_content_id : String
  target_content_id : String
  propagation_type : String
  similarity_score : Option ℚ
  mutation_detected : Bool
  time_delta_seconds : Option Int
  created_at : Int
deriving DecidableEq, Repr

/-- A frozen store snapshot: everything the analyzer's queries can see. -/
structure Snapshot where
  sources : List Source
  contents : List Content
  propagations : List Propagation
deriving DecidableEq, Repr

/-- The query `filter(Propagation.created_at >= cutoff_date)`. -/
def windowProps (snap : Snapshot) (cutoff : Int) : List Propagation :=
  snap.propagations.filter (fun p => decide (cutoff ≤ p.created_at))

/-- Resolution of a content id through the session (the eager-loaded
`source_content` / `target_content` relationships). -/
def findContent (snap : Snapshot) (cid : String) : Option Content :=
  snap.contents.find? (fun c => decide (c.id = cid))

/-! ### Content graph (`build_content_graph`) -/

/-- Attributes stored on a content-graph edge by `add_edge`. -/
structure ContentEdgeData where
  propagation_type : String
  similarity : ℚ
  mutation : Bool
  time_delta : Int
deriving DecidableEq, Repr

/-- The content graph: a networkx `DiGraph` whose nodes all come from
`add_edge`, i.e. an insertion-ordered edge dictionary keyed by the
ordered pair of content ids. -/
abbrev ContentGraph := List ((String × String) × ContentEdgeData)

/-- Dictionary update as networkx `add_edge` performs it: an existing
key keeps its position and gets the new data, a new key is appended. -/
def upsertEdge : ContentGraph → (String × String) → ContentEdgeData → ContentGraph
  | [], k, d => [(k, d)]
  | e :: rest, k, d =>
      if e.1 = k then (k, d) :: rest else e :: upsertEdge rest k d

/-- Edge lookup in the content graph: the first (hence, keys being
unique, the only) entry with that key. -/
def edgeLookup : ContentGraph → String → String → Option ContentEdgeData
  | [], _, _ => none
  | e :: rest, a, b => if e.1 = (a, b) then some e.2 else edgeLookup rest a b

/-- The guard `if prop.similarity_score and prop.similarity_score <
min_similarity: continue`: Python truthiness makes a score of `0.0`
behave like an absent score. -/
def simSkip (min_similarity : ℚ) (p : Propagation) : Bool :=
  match p.similarity_score with
  | none => false
  | some s => decide (s ≠ 0) && decide (s < min_similarity)

/-- The attribute record passed to `add_edge` for a propagation link:
`or`-defaults substitute `0` for an absent similarity or time delta. -/
def contentEdgeData (p : Propagation) : ContentEdgeData :=
  { propagation_type := p.propagation_type
    similarity := p.similarity_score.getD 0
    mutation := p.mutation_detected
    time_delta := p.time_delta_seconds.getD 0 }

/-- One iteration of the `for prop in propagations` loop of
`build_content_graph`. -/
def contentStep (min_similarity : ℚ) (g : ContentGraph) (p : Propagation) :
    ContentGraph :=
  if simSkip min_similarity p then g
  else upsertEdge g (p.source_content_id, p.target_content_id) (contentEdgeData p)

/-- `NetworkAnalyzer.build_content_graph`: clear the instance graph,
then add one edge per non-skipped propagation link in the window.  The
previous graph `g0` is taken as an argument exactly so that the clears
are visible: the result never depends on it. -/
def build_content_graph (snap : Snapshot) (cutoff : Int) (min_similarity : ℚ)
    (g0 : ContentGraph) : ContentGraph :=
  let cleared : ContentGraph := []
  let _ := g0
  (windowProps snap cutoff).foldl (contentStep min_similarity) cleared

/-! ### Source graph (`build_source_graph`) -/

/-- Node attributes set for an active source by `add_node`. -/
structure NodeAttrs where
  name : String
  source_type : String
  language : String
  is_doppelganger : Bool
  is_amplifier : Bool
deriving DecidableEq, Repr

/-- Python `x or default` on an optional string: `None` and the empty
string both fall back. -/
def orDefault (o : Option String) (d : String) : String :=
  match o with
  | none => d
  | some s => if s = "" then d else s

/-- The attribute record `build_source_graph` passes to `add_node`. -/
def sourceAttrs (s : Source) : NodeAttrs :=
  { name := s.name
    source_type := s.source_type
    language := orDefault s.language "unknown"
    is_doppelganger := s.is_doppelganger
    is_amplifier := s.is_amplifier }

/-- The source graph: insertion-ordered node dictionary (attribute-less
nodes, created implicitly by `add_edge`, carry `none`) and an
insertion-ordered weighted edge dictionary. -/
structure SourceGraph where
  nodes : List (String × Option NodeAttrs)
  edges : List ((String × String) × ℕ)
deriving DecidableEq, Repr

/-- Node-dictionary update: an existing key keeps its position and
gets the new attributes, a new key is appended. -/
def upsertNode : List (String × Option NodeAttrs) → String → NodeAttrs →
    List (String × Option NodeAttrs)
  | [], i, a => [(i, some a)]
  | n :: rest, i, a =>
      if n.1 = i then (i, some a) :: rest else n :: upsertNode rest i a

/-- networkx `add_node` with attributes: update in place or append. -/
def addNodeAttrs (g : SourceGraph) (id : String) (a : NodeAttrs) : SourceGraph :=
  { g with nodes := upsertNode g.nodes id a }

/-- networkx node auto-creation by `add_edge`: a missing endpoint is
appended with an empty attribute dict; an existing node is untouched. -/
def ensureNode (g : SourceGraph) (id : String) : SourceGraph :=
  if g.nodes.any (fun n => decide (n.1 = id)) then g
  else { g with nodes := g.nodes ++ [(id, none)] }

/-- Edge-dictionary update: an existing key keeps its position and
gets the new weight, a new key is appended. -/
def upsertWeight : List ((String × String) × ℕ) → (String × String) → ℕ →
    List ((String × String) × ℕ)
  | [], k, w => [(k, w)]
  | e :: rest, k, w =>
      if e.1 = k then (k, w) :: rest else e :: upsertWeight rest k w

/-- networkx `add_edge(src, tgt, weight=w)` on the source graph. -/
def addWeightedEdge (g : SourceGraph) (k : String × String) (w : ℕ) : SourceGraph :=
  let g1 := ensureNode (ensureNode g k.1) k.2
  { g1 with edges := upsertWeight g1.edges k w }

/-- The `edge_weights: defaultdict(int)` counter. -/
abbrev Counter := List ((String × String) × ℕ)

/-- `edge_weights[key] += 1`: bump the first entry with that key, or
append a fresh entry with count 1. -/
def incr : Counter → (String × String) → Counter
  | [], k => [(k, 1)]
  | e :: rest, k => if e.1 = k then (e.1, e.2 + 1) :: rest else e :: incr rest k

/-- Dictionary read with default 0. -/
def look0 : Counter → (String × String) → ℕ
  | [], _ => 0
  | e :: rest, k => if e.1 = k then e.2 else look0 rest k

/-- Dictionary key membership. -/
def hasKey : Counter → (String × String) → Bool
  | [], _ => false
  | e :: rest, k => decide (e.1 = k) || hasKey rest k

/-- Python truthiness of an optional id string. -/
def truthyId : Option String → Bool
  | none => false
  | some s => decide (s ≠ "")

/-- The ordered owning-source pair of a propagation link, when the
guards of the counting loop accept it: both endpoint contents resolve,
both owning-source ids are truthy, and the two owners differ. -/
def propPair (snap : Snapshot) (p : Propagation) : Option (String × String) :=
  match findContent snap p.source_content_id, findContent snap p.target_content_id with
  | some sc, some tc =>
      match sc.source_id, tc.source_id with
      | some a, some b =>
          if a ≠ "" ∧ b ≠ "" ∧ a ≠ b then some (a, b) else none
      | _, _ => none
  | _, _ => none

/-- One iteration of the propagation-counting loop. -/
def countStep (snap : Snapshot) (c : Counter) (p : Propagation) : Counter :=
  match propPair snap p with
  | some k => incr c k
  | none => c

/-- The number of links in the window whose resolved owning-source
pair is exactly `(a, b)`. -/
def pairCount (snap : Snapshot) (cutoff : Int) (a b : String) : ℕ :=
  (windowProps snap cutoff).countP (fun p => decide (propPair snap p = some (a, b)))

/-- `NetworkAnalyzer.build_source_graph`: clear the instance graph, add
one attributed node per active source, count propagations between
distinct owning sources, then add one weighted edge per counter entry.
The previous graph `g0` is an argument only to make the clear visible. -/
def build_source_graph (snap : Snapshot) (cutoff : Int) (g0 : SourceGraph) :
    SourceGraph :=
  let cleared : SourceGraph := { nodes := [], edges := [] }
  let _ := g0
  let g1 := (snap.sources.filter (·.is_active)).foldl
      (fun g s => addNodeAttrs g s.id (sourceAttrs s)) cleared
  let edge_weights := (windowProps snap cutoff).foldl (countStep snap) []
  edge_weights.foldl (fun g e => addWeightedEdge g e.1 e.2) g1

/-- Weight lookup in the source graph. -/
def edgeWeight (g : SourceGraph) (a b : String) : Option ℕ :=
  (g.edges.find? (fun e => decide (e.1 = (a, b)))).map (·.2)

/-- The node-id list of the source graph. -/
def nodeIds (g : SourceGraph) : List String := g.nodes.map Prod.fst

/-- Attribute lookup of a node: `none` if the node is absent,
`some none` if present without attributes. -/
def nodeAttr (g : SourceGraph) (a : String) : Option (Option NodeAttrs) :=
  (g.nodes.find? (fun n => decide (n.1 = a))).map (·.2)

/-- Ids of the active sources of a snapshot. -/
def activeIds (snap : Snapshot) : List String :=
  (snap.sources.filter (·.is_active)).map (·.id)

/-! ### Superspreaders (`find_superspreaders`) and communities -/

/-- The `SuperspreaderInfo` dataclass. -/
structure SuperspreaderInfo where
  id : String
  name : String
  source_type : String
  out_degree : ℕ
  pagerank : ℚ
  betweenness : ℚ
  score : ℚ
  is_doppelganger : Bool
deriving DecidableEq, Repr

/-- Out-degree of a node: number of edge-dictionary entries leaving it. -/
def outDegree (g : SourceGraph) (a : String) : ℕ :=
  (g.edges.filter (fun e => decide (e.1.1 = a))).length

/-- In-degree of a node. -/
def inDegree (g : SourceGraph) (a : String) : ℕ :=
  (g.edges.filter (fun e => decide (e.1.2 = a))).length

/-- The record built for one node of the loop `for node in
graph.nodes()`, including the `attrs.get(..., default)` fallbacks and
the combined score `out*0.4 + pr*100*0.4 + bet*10*0.2`. -/
def mkSpreader (g : SourceGraph) (pr bet : String → ℚ)
    (node : String) (attr : Option NodeAttrs) : SuperspreaderInfo :=
  { id := node
    name := (attr.map (·.name)).getD node
    source_type := (attr.map (·.source_type)).getD "unknown"
    out_degree := outDegree g node
    pagerank := pr node
    betweenness := bet node
    score := (outDegree g node : ℚ) * 0.4 + pr node * 100 * 0.4 + bet node * 10 * 0.2
    is_doppelganger := (attr.map (·.is_doppelganger)).getD false }

/-- Descending-score comparison used by `sort(key=score, reverse=True)`. -/
def scoreGE (x y : SuperspreaderInfo) : Prop := y.score ≤ x.score

instance : DecidableRel scoreGE :=
  fun x y => inferInstanceAs (Decidable (y.score ≤ x.score))

/-- The `try/except` around a centrality computation: a failure is
replaced by the all-zero dictionary `{n: 0 for n in graph.nodes()}`. -/
def centralityD (e : Except Unit (String → ℚ)) : String → ℚ :=
  match e with
  | .ok f => f
  | .error _ => fun _ => 0

/-- `NetworkAnalyzer.find_superspreaders`: one record per node, sorted
stably by descending combined score, truncated to `top_n`; outcomes of
`nx.pagerank` and `nx.betweenness_centrality` are passed in as
`Except` values. -/
def find_superspreaders (g : SourceGraph) (top_n : ℕ)
    (prE betE : Except Unit (String → ℚ)) : List SuperspreaderInfo :=
  if g.nodes.length = 0 then []
  else
    let recs := g.nodes.map
      (fun n => mkSpreader g (centralityD prE) (centralityD betE) n.1 n.2)
    (recs.insertionSort scoreGE).take top_n

/-- `NetworkAnalyzer.detect_communities` on the undirected projection
of the source graph; the Louvain partition is passed in as an `Except`
value and the guard and `except` branch return the empty mapping. -/
def detect_communities (g : SourceGraph) (louvainE : Except Unit (List (String × ℕ))) :
    List (String × ℕ) :=
  if g.nodes.length < 2 then []
  else match louvainE with
    | .ok partition => partition
    | .error _ => []

/-! ### Network statistics (`get_network_stats`) -/

/-- The `NetworkStats` dataclass. -/
structure NetworkStats where
  node_count : ℕ
  edge_count : ℕ
  density : ℚ
  community_count : ℕ
  avg_degree : ℚ
  is_connected : Bool
deriving DecidableEq, Repr

/-- `nx.density` for a directed graph: `m / (n·(n−1))`, and `0` when
`m = 0` or `n ≤ 1`. -/
def nxDensity (n m : ℕ) : ℚ :=
  if m = 0 ∨ n ≤ 1 then 0 else (m : ℚ) / ((n : ℚ) * ((n : ℚ) - 1))

/-- Sum of `(in+out)`-degrees over the node dictionary
(`sum(dict(graph.degree()).values())`). -/
def degreeSum (g : SourceGraph) : ℕ :=
  (g.nodes.map (fun n => outDegree g n.1 + inDegree g n.1)).sum

/-- Undirected adjacency of the projection `to_undirected()`. -/
def undirectedAdj (g : SourceGraph) (a b : String) : Bool :=
  g.edges.any (fun e =>
    (decide (e.1.1 = a) && decide (e.1.2 = b)) ||
    (decide (e.1.1 = b) && decide (e.1.2 = a)))

/-- One round of reachable-set expansion. -/
def reachStep (g : SourceGraph) (s : List String) : List String :=
  s ++ (nodeIds g).filter
    (fun b => !s.contains b && s.any (fun a => undirectedAdj g a b))

/-- Iterated expansion. -/
def reachIter (g : SourceGraph) : ℕ → List String → List String
  | 0, s => s
  | k + 1, s => reachIter g k (reachStep g s)

/-- `nx.is_connected` on the undirected projection: every node is
reachable from the first one. -/
def isConnectedUndirected (g : SourceGraph) : Bool :=
  match nodeIds g with
  | [] => false
  | a :: _ => (nodeIds g).all (fun b => (reachIter g g.nodes.length [a]).contains b)

/-- `NetworkAnalyzer.get_network_stats`.  The outcome of the
`nx.is_connected` call inside the `try` block is passed in as an
`Except` value; an exception leaves the initial `is_connected=False`. -/
def get_network_stats (g : SourceGraph) (connCheck : Except Unit Bool) :
    NetworkStats :=
  let n := g.nodes.length
  let stats0 : NetworkStats :=
    { node_count := n
      edge_count := g.edges.length
      density := if 0 < n then nxDensity n g.edges.length else 0
      community_count := 0
      avg_degree := 0
      is_connected := false }
  if 0 < n then
    { stats0 with
      avg_degree := (degreeSum g : ℚ) / (n : ℚ)
      is_connected := match connCheck with | .ok b => b | .error _ => false }
  else stats0

/-! ### Coordinated behavior (`detect_coordinated_behavior`) -/

/-- The `CoordinatedBehaviorEvent` dataclass. -/
structure CoordinatedBehaviorEvent where
  timestamp : Int
  content_count : ℕ
  unique_sources : ℕ
  window_seconds : Int
  content_ids : List String
deriving DecidableEq, Repr

/-- Hour bucket of a timestamp: the strftime `"%Y-%m-%dT%H"` key
truncates to the hour, i.e. floor division by 3600 seconds. -/
def hourKey (t : Int) : Int := t.fdiv 3600

/-- The inner `for j in range(i, len(contents))` loop: collect items
while the delta stays within the window, skip timestamp-less items,
break at the first item past the window. -/
def takeWindow (t0 w : Int) : List Content → List Content
  | [] => []
  | c :: rest =>
      match c.published_at with
      | none => takeWindow t0 w rest
      | some t => if t - t0 ≤ w then c :: takeWindow t0 w rest else []

/-- The set `{c.source_id for c in window_contents if c.source_id}`,
as a duplicate-free list: only the length is ever used. -/
def windowSources (win : List Content) : List String :=
  (win.filterMap (fun c =>
    match c.source_id with
    | some s => if s = "" then none else some s
    | none => none)).dedup

/-- Ascending publication-time comparison of the `order_by` clause. -/
def timeLE (c d : Content) : Prop := c.published_at.getD 0 ≤ d.published_at.getD 0

instance : DecidableRel timeLE :=
  fun c d => inferInstanceAs (Decidable (c.published_at.getD 0 ≤ d.published_at.getD 0))

/-- The outer sweep of `detect_coordinated_behavior`, carrying the
`seen_hours` set.  The index advances one item at a time; emission
requires enough items, enough distinct sources and an unseen anchor
hour bucket. -/
def sweep (w : Int) (min_actors : ℕ) :
    List Content → List Int → List CoordinatedBehaviorEvent
  | [], _ => []
  | c :: rest, seen =>
      match c.published_at with
      | none => sweep w min_actors rest seen
      | some t =>
          let win := takeWindow t w (c :: rest)
          if min_actors ≤ win.length then
            let srcs := windowSources win
            if min_actors ≤ srcs.length then
              if hourKey t ∈ seen then sweep w min_actors rest seen
              else
                { timestamp := t
                  content_count := win.length
                  unique_sources := srcs.length
                  window_seconds := w
                  content_ids := (win.take 10).map (·.id) } ::
                  sweep w min_actors rest (hourKey t :: seen)
            else sweep w min_actors rest seen
          else sweep w min_actors rest seen

/-- `NetworkAnalyzer.detect_coordinated_behavior`: query the contents
with a known publication time ordered ascending, then sweep. -/
def detect_coordinated_behavior (contents : List Content)
    (time_window_seconds : Int) (min_actors : ℕ) : List CoordinatedBehaviorEvent :=
  let cs := (contents.filter (fun c => c.published_at.isSome)).insertionSort timeLE
  if cs.isEmpty then [] else sweep time_window_seconds min_actors cs []

/-! ### Full analysis (`run_full_analysis`) -/

/-- The mutable graph state of a `NetworkAnalyzer` instance. -/
structure AnalyzerState where
  content_graph : ContentGraph
  source_graph : SourceGraph
deriving DecidableEq, Repr

/-- `self.build_content_graph(days_back)` on an instance. -/
def buildContentGraphS (snap : Snapshot) (cutoff : Int) (min_similarity : ℚ)
    (st : AnalyzerState) : AnalyzerState :=
  { st with content_graph := build_content_graph snap cutoff min_similarity st.content_graph }

/-- `self.build_source_graph(days_back)` on an instance. -/
def buildSourceGraphS (snap : Snapshot) (cutoff : Int) (st : AnalyzerState) :
    AnalyzerState :=
  { st with source_graph := build_source_graph snap cutoff st.source_graph }

/-- The parts of the `run_full_analysis` result record that the
verified claims are about. -/
structure FullResults where
  stats : NetworkStats
  superspreaders : List SuperspreaderInfo
  coordinated : List CoordinatedBehaviorEvent
  communities : Option (ℕ × List (String × ℕ))
deriving DecidableEq, Repr

/-- `NetworkAnalyzer.run_full_analysis`: rebuild both graphs, compute
stats, superspreaders and coordination, and (only when the source
graph has more than 2 nodes) the community partition with its
distinct-community count, reported separately from the stats record. -/
def run_full_analysis (snap : Snapshot) (cutoff : Int) (min_similarity : ℚ)
    (connCheck : Except Unit Bool) (prE betE : Except Unit (String → ℚ))
    (louvainE : Except Unit (List (String × ℕ)))
    (st : AnalyzerState) : AnalyzerState × FullResults :=
  let st1 := buildContentGraphS snap cutoff min_similarity st
  let st2 := buildSourceGraphS snap cutoff st1
  let stats := get_network_stats st2.source_graph connCheck
  let spreaders := find_superspreaders st2.source_graph 20 prE betE
  let coord := detect_coordinated_behavior snap.contents 300 3
  let communities :=
    if 2 < st2.source_graph.nodes.length then
      let partition := detect_communities st2.source_graph louvainE
      some (((partition.map Prod.snd).dedup).length, partition)
    else none
  (st2, { stats := stats
          superspreaders := spreaders
          coordinated := coord
          communities := communities })

/-! ### Order instances for the sort relations -/

instance : IsTotal SuperspreaderInfo scoreGE :=
  ⟨fun a b => le_total b.score a.score⟩

instance : IsTrans SuperspreaderInfo scoreGE :=
  ⟨fun _ _ _ h1 h2 => le_trans h2 h1⟩

instance : IsTotal Content timeLE :=
  ⟨fun a b => le_total (a.published_at.getD 0) (b.published_at.getD 0)⟩

instance : IsTrans Content timeLE :=
  ⟨fun _ _ _ h1 h2 => le_trans h1 h2⟩

/-! ### Concrete instances used by witnesses and counterexamples -/

/-- Content row constructor shorthand. -/
def mkContent (i : String) (s : Option String) (t : Option Int) : Content :=
  { id := i, source_id := s, published_at := t }

/-- Three items 10 s apart from three distinct sources. -/
def scenThree : List Content :=
  [mkContent "c1" (some "s1") (some 0),
   mkContent "c2" (some "s2") (some 10),
   mkContent "c3" (some "s3") (some 20)]

/-- The same items from only two distinct sources. -/
def scenTwo : List Content :=
  [mkContent "c1" (some "s1") (some 0),
   mkContent "c2" (some "s2") (some 10),
   mkContent "c3" (some "s1") (some 20)]

/-- A burst straddling the hour boundary at t = 3600: anchors at 3500
and 3650 fall in different hour buckets. -/
def burstAcrossHour : List Content :=
  [mkContent "a" (some "s1") (some 3500),
   mkContent "b" (some "s2") (some 3650),
   mkContent "c" (some "s3") (some 3700),
   mkContent "d" (some "s4") (some 3750)]

/-- A snapshot whose single propagation link has a *present* similarity
score of exactly 0. -/
def snapZeroSim : Snapshot :=
  { sources := []
    contents := []
    propagations := [{ source_content_id := "c1", target_content_id := "c2",
                       propagation_type := "similar", similarity_score := some 0,
                       mutation_detected := false, time_delta_seconds := none,
                       created_at := 0 }] }

/-- An active source. -/
def srcAlpha : Source :=
  { id := "A", name := "Alpha", source_type := "telegram",
    language := none, is_doppelganger := false, is_amplifier := false,
    is_active := true }

/-- A second active source. -/
def srcBeta : Source :=
  { id := "B", name := "Beta", source_type := "media",
    language := some "fr", is_doppelganger := false, is_amplifier := false,
    is_active := true }

/-- A third active source. -/
def srcGamma : Source :=
  { id := "C", name := "Gamma", source_type := "domain",
    language := none, is_doppelganger := true, is_amplifier := false,
    is_active := true }

/-- One active source `A`; content `c2` is owned by the unknown (not
listed, hence inactive) source `B`; one propagation from `c1` to `c2`. -/
def snapInactive : Snapshot :=
  { sources := [srcAlpha]
    contents := [mkContent "c1" (some "A") none, mkContent "c2" (some "B") none]
    propagations := [{ source_content_id := "c1", target_content_id := "c2",
                       propagation_type := "forward", similarity_score := none,
                       mutation_detected := false, time_delta_seconds := none,
                       created_at := 5 }] }

/-- Three active sources, no content and no propagation. -/
def snapThreeSources : Snapshot :=
  { sources := [srcAlpha, srcBeta, srcGamma]
    contents := []
    propagations := [] }

/-- The empty analyzer state (a freshly constructed instance). -/
def emptyState : AnalyzerState :=
  { content_graph := [], source_graph := { nodes := [], edges := [] } }

/-- A one-node attribute-less source graph. -/
def oneNodeGraph : SourceGraph := { nodes := [("A", none)], edges := [] }

/-- A two-node directed graph with a single edge. -/
def twoNodeOneEdgeGraph : SourceGraph :=
  { nodes := [("A", none), ("B", none)], edges := [(("A", "B"), 1)] }

/-- The record `find_superspreaders` produces for the sole node of
`oneNodeGraph` under the zero centrality dictionaries. -/
def recA : SuperspreaderInfo :=
  { id := "A", name := "A", source_type := "unknown", out_degree := 0,
    pagerank := 0, betweenness := 0, score := 0, is_doppelganger := false }

/-- The record produced for the attribute-less node `B` of the graph
built from `snapInactive`. -/
def recB : SuperspreaderInfo :=
  { id := "B", name := "B", source_type := "unknown", out_degree := 0,
    pagerank := 0, betweenness := 0, score := 0, is_doppelganger := false }

/-- The single event the coordination detector emits on `scenThree`. -/
def eventThree : CoordinatedBehaviorEvent :=
  { timestamp := 0, content_count := 3, unique_sources := 3,
    window_seconds := 30, content_ids := ["c1", "c2", "c3"] }

/-- The source graph built from `snapInactive`: the active source `A`
with attributes, the inactive participant `B` without, one edge. -/
def graphInactive : SourceGraph :=
  { nodes := [("A", some (sourceAttrs srcAlpha)), ("B", none)],
    edges := [(("A", "B"), 1)] }

/-- The record produced for the attributed node `A` of `graphInactive`
under the zero centrality dictionaries. -/
def recAlpha : SuperspreaderInfo :=
  { id := "A", name := "Alpha", source_type := "telegram", out_degree := 1,
    pagerank := 0, betweenness := 0, score := 2/5, is_doppelganger := false }

/-! ## Lemmas about the propagation counter -/

theorem look0_incr (c : Counter) (k' k : String × String) :
    look0 (incr c k') k = look0 c k + if k = k' then 1 else 0 := by
  induction c with
  | nil =>
      by_cases h : k = k'
      · subst h; simp [incr, look0]
      · have h2 : ¬(k' = k) := fun hh => h hh.symm
        simp [incr, look0, h, h2]
  | cons e rest ih =>
      by_cases h1 : e.1 = k'
      · subst h1
        by_cases h2 : k = e.1
        · subst h2; simp [incr, look0]
        · have h3 : ¬(e.1 = k) := fun hh => h2 hh.symm
          simp [incr, look0, h2, h3]
      · by_cases h2 : e.1 = k
        · subst h2
          have h3 : ¬(e.1 = k') := h1
          simp [incr, look0, h1, fun hh : e.1 = k' => h1 hh]
        · simp [incr, look0, h1, h2, ih]

theorem hasKey_incr (c : Counter) (k' k : String × String) :
    hasKey (incr c k') k = (hasKey c k || decide (k = k')) := by
  induction c with
  | nil =>
      by_cases h : k = k'
      · subst h; simp [incr, hasKey]
      · have h2 : ¬(k' = k) := fun hh => h hh.symm
        simp [incr, hasKey, h, h2]
  | cons e rest ih =>
      by_cases h1 : e.1 = k'
      · subst h1
        by_cases h3 : k = e.1
        · subst h3; simp [incr, hasKey]
        · have h4 : ¬(e.1 = k) := fun hh => h3 hh.symm
          simp [incr, hasKey, h3, h4]
      · simp [incr, hasKey, h1, ih, Bool.or_assoc]

theorem hasKey_of_mem {c : Counter} {e : (String × String) × ℕ} (h : e ∈ c) :
    hasKey c e.1 = true := by
  induction c with
  | nil => simp at h
  | cons f rest ih =>
      rcases List.mem_cons.mp h with h | h
      · simp [hasKey, h]
      · simp [hasKey, ih h]

theorem exists_of_hasKey {c : Counter} {k : String × String}
    (h : hasKey c k = true) : ∃ v, (k, v) ∈ c := by
  induction c with
  | nil => simp [hasKey] at h
  | cons e rest ih =>
      simp only [hasKey, Bool.or_eq_true, decide_eq_true_eq] at h
      rcases h with h | h
      · exact ⟨e.2, by simp [← h]⟩
      · obtain ⟨v, hv⟩ := ih h
        exact ⟨v, List.mem_cons_of_mem _ hv⟩

theorem mem_keys_incr {c : Counter} {k : String × String} {a : String × String} :
    a ∈ (incr c k).map Prod.fst ↔ a ∈ c.map Prod.fst ∨ a = k := by
  induction c with
  | nil => simp [incr]
  | cons e rest ih =>
      by_cases h1 : e.1 = k
      · subst h1
        simp [incr]
        tauto
      · simp [incr, h1, ih]
        tauto

theorem nodup_incr {c : Counter} {k : String × String}
    (h : (c.map Prod.fst).Nodup) : ((incr c k).map Prod.fst).Nodup := by
  induction c with
  | nil => simp [incr]
  | cons e rest ih =>
      simp only [List.map_cons, List.nodup_cons] at h
      by_cases h1 : e.1 = k
      · subst h1
        simpa [incr, List.nodup_cons] using h
      · simp only [incr, if_neg h1, List.map_cons, List.nodup_cons]
        refine ⟨fun hmem => ?_, ih h.2⟩
        rcases mem_keys_incr.mp hmem with hm | hm
        · exact h.1 hm
        · exact h1 hm

theorem find?_counter (c : Counter) (k : String × String) :
    c.find? (fun e => decide (e.1 = k)) =
      if hasKey c k then some (k, look0 c k) else none := by
  induction c with
  | nil => simp [hasKey]
  | cons e rest ih =>
      by_cases h1 : e.1 = k
      · subst h1
        simp [List.find?_cons, hasKey, look0]
      · simp [List.find?_cons, h1, hasKey, look0, ih]

/-! ## Lemmas about the counting fold -/

theorem look0_countFold (snap : Snapshot) (l : List Propagation) (c : Counter)
    (k : String × String) :
    look0 (l.foldl (countStep snap) c) k =
      look0 c k + l.countP (fun p => decide (propPair snap p = some k)) := by
  induction l generalizing c with
  | nil => simp
  | cons p l ih =>
      rw [List.foldl_cons, ih, List.countP_cons]
      cases hp : propPair snap p with
      | none => simp [countStep, hp]
      | some k0 =>
          by_cases hk : k0 = k
          · subst hk
            simp [countStep, hp, look0_incr]
            omega
          · have hk2 : ¬(k = k0) := fun hh => hk hh.symm
            simp [countStep, hp, look0_incr, hk, hk2]

theorem hasKey_countFold (snap : Snapshot) (l : List Propagation) (c : Counter)
    (k : String × String) :
    (hasKey (l.foldl (countStep snap) c) k = true ↔
      hasKey c k = true ∨ 0 < l.countP (fun p => decide (propPair snap p = some k))) := by
  induction l generalizing c with
  | nil => simp
  | cons p l ih =>
      rw [List.foldl_cons, List.countP_cons]
      cases hp : propPair snap p with
      | none => simp [countStep, hp, ih]
      | some k0 =>
          by_cases hk : k0 = k
          · subst hk
            simp [countStep, hp, ih, hasKey_incr]
          · have hk2 : ¬(k = k0) := fun hh => hk hh.symm
            simp [countStep, hp, ih, hasKey_incr, hk, hk2]

theorem nodup_countFold (snap : Snapshot) (l : List Propagation) (c : Counter)
    (h : (c.map Prod.fst).Nodup) :
    ((l.foldl (countStep snap) c).map Prod.fst).Nodup := by
  induction l generalizing c with
  | nil => simpa
  | cons p l ih =>
      rw [List.foldl_cons]
      cases hp : propPair snap p with
      | none => exact ih _ (by simpa [countStep, hp])
      | some k0 => exact ih _ (by simpa [countStep, hp] using nodup_incr h)

/-! ## The edges of the built source graph -/

theorem edges_ensureNode (g : SourceGraph) (i : String) :
    (ensureNode g i).edges = g.edges := by
  unfold ensureNode
  split <;> rfl

theorem edges_addWeightedEdge (g : SourceGraph) (k : String × String) (w : ℕ) :
    (addWeightedEdge g k w).edges = upsertWeight g.edges k w := by
  simp [addWeightedEdge, edges_ensureNode]

theorem upsertWeight_fresh (es : List ((String × String) × ℕ))
    (k : String × String) (w : ℕ) (h : ∀ e ∈ es, e.1 ≠ k) :
    upsertWeight es k w = es ++ [(k, w)] := by
  induction es with
  | nil => rfl
  | cons e rest ih =>
      have he : e.1 ≠ k := h e (List.mem_cons_self e rest)
      simp [upsertWeight, he, ih (fun f hf => h f (List.mem_cons_of_mem _ hf))]

theorem edges_weightFold (entries : List ((String × String) × ℕ)) (g : SourceGraph)
    (hdisj : ∀ e ∈ entries, ∀ f ∈ g.edges, f.1 ≠ e.1)
    (hnd : (entries.map Prod.fst).Nodup) :
    (entries.foldl (fun g e => addWeightedEdge g e.1 e.2) g).edges =
      g.edges ++ entries := by
  induction entries generalizing g with
  | nil => simp
  | cons e rest ih =>
      rw [List.foldl_cons]
      have hfresh : ∀ f ∈ g.edges, f.1 ≠ e.1 :=
        fun f hf => hdisj e (List.mem_cons_self e rest) f hf
      have hedges : (addWeightedEdge g e.1 e.2).edges = g.edges ++ [e] := by
        rw [edges_addWeightedEdge, upsertWeight_fresh _ _ _ hfresh]
      simp only [List.map_cons, List.nodup_cons] at hnd
      rw [ih (addWeightedEdge g e.1 e.2) ?_ hnd.2, hedges, List.append_assoc,
        List.singleton_append]
      intro f hf f' hf'
      rw [hedges] at hf'
      rcases List.mem_append.mp hf' with hm | hm
      · exact hdisj f (List.mem_cons_of_mem _ hf) f' hm
      · have : f' = e := by simpa using hm
        subst this
        intro hc
        exact hnd.1 (hc ▸ List.mem_map_of_mem Prod.fst hf)

theorem edges_addNodeFold (srcs : List Source) (g : SourceGraph) :
    ((srcs.foldl (fun g s => addNodeAttrs g s.id (sourceAttrs s)) g)).edges =
      g.edges := by
  induction srcs generalizing g with
  | nil => rfl
  | cons s rest ih => rw [List.foldl_cons, ih]; rfl

theorem edges_build_source_graph (snap : Snapshot) (cutoff : Int) (g0 : SourceGraph) :
    (build_source_graph snap cutoff g0).edges =
      (windowProps snap cutoff).foldl (countStep snap) [] := by
  unfold build_source_graph
  rw [edges_weightFold _ _ ?_ (nodup_countFold snap _ [] (by simp))]
  · rw [edges_addNodeFold]
    rfl
  · intro e _ f hf
    rw [edges_addNodeFold] at hf
    simp at hf

theorem edgeWeight_build (snap : Snapshot) (cutoff : Int) (g0 : SourceGraph)
    (a b : String) :
    edgeWeight (build_source_graph snap cutoff g0) a b =
      if 0 < pairCount snap cutoff a b then some (pairCount snap cutoff a b)
      else none := by
  unfold edgeWeight pairCount
  rw [edges_build_source_graph, find?_counter]
  have hl := look0_countFold snap (windowProps snap cutoff) [] (a, b)
  have hk := hasKey_countFold snap (windowProps snap cutoff) [] (a, b)
  simp only [look0, Nat.zero_add] at hl
  simp only [hasKey, Bool.false_eq_true, false_or] at hk
  by_cases h : 0 < (windowProps snap cutoff).countP
      (fun p => decide (propPair snap p = some (a, b)))
  · rw [if_pos (hk.mpr h), if_pos h]
    simp [hl]
  · have hfalse : hasKey ((windowProps snap cutoff).foldl (countStep snap) [])
        (a, b) = false := by
      cases hcase : hasKey ((windowProps snap cutoff).foldl (countStep snap) []) (a, b)
      · rfl
      · exact absurd (hk.mp hcase) h
    rw [hfalse, if_neg h]
    simp

/-- The owning-source pair of a counted link always has distinct
components: the `src_id != tgt_id` guard. -/
theorem propPair_ne (snap : Snapshot) (p : Propagation) (k : String × String)
    (h : propPair snap p = some k) : k.1 ≠ k.2 := by
  rcases hs : findContent snap p.source_content_id with _ | sc
  · simp [propPair, hs] at h
  rcases ht : findContent snap p.target_content_id with _ | tc
  · simp [propPair, hs, ht] at h
  rcases ha : sc.source_id with _ | a
  · simp [propPair, hs, ht, ha] at h
  rcases hb : tc.source_id with _ | b
  · simp [propPair, hs, ht, ha, hb] at h
  simp only [propPair, hs, ht, ha, hb] at h
  by_cases hg : a ≠ "" ∧ b ≠ "" ∧ a ≠ b
  · rw [if_pos hg] at h
    cases h
    exact hg.2.2
  · rw [if_neg hg] at h
    exact absurd h (by simp)

/-- **C1.** For every snapshot and lookback window, the built source
graph has edge `(a, b)` with weight `w` exactly when `w` is the
positive count of window links whose endpoints resolve to contents
with known owning sources forming the ordered pair `(a, b)`; and no
self-loop `(a, a)` is ever present. -/
theorem spec_C1 (snap : Snapshot) (cutoff : Int) (g0 : SourceGraph)
    (a b : String) (w : ℕ) :
    (edgeWeight (build_source_graph snap cutoff g0) a b = some w ↔
      0 < w ∧ w = pairCount snap cutoff a b)
    ∧ edgeWeight (build_source_graph snap cutoff g0) a a = none := by
  constructor
  · rw [edgeWeight_build]
    by_cases h : 0 < pairCount snap cutoff a b
    · simp only [if_pos h, Option.some.injEq]
      constructor
      · rintro rfl
        exact ⟨h, rfl⟩
      · rintro ⟨_, rfl⟩
        rfl
    · simp only [if_neg h]
      constructor
      · intro hc
        exact absurd hc (by simp)
      · rintro ⟨h1, rfl⟩
        exact absurd h1 h
  · rw [edgeWeight_build]
    have hz : pairCount snap cutoff a a = 0 := by
      unfold pairCount
      rw [List.countP_eq_zero]
      intro p _
      simp only [decide_eq_true_eq]
      intro hp
      exact propPair_ne snap p (a, a) hp rfl
    simp [hz]

/-! ## Lemmas about the content graph -/

theorem edgeLookup_upsert (g : ContentGraph) (k : String × String)
    (d : ContentEdgeData) (a b : String) :
    edgeLookup (upsertEdge g k d) a b =
      if (a, b) = k then some d else edgeLookup g a b := by
  induction g with
  | nil =>
      by_cases h : (a, b) = k
      · subst h; simp [upsertEdge, edgeLookup]
      · have h2 : ¬(k = (a, b)) := fun hh => h hh.symm
        simp [upsertEdge, edgeLookup, h, h2]
  | cons e rest ih =>
      by_cases h1 : e.1 = k
      · subst h1
        by_cases h2 : e.1 = (a, b)
        · simp [upsertEdge, edgeLookup, h2.symm]
        · have h3 : ¬((a, b) = e.1) := fun hh => h2 hh.symm
          simp [upsertEdge, edgeLookup, h2, h3]
      · by_cases h2 : e.1 = (a, b)
        · have h3 : ¬((a, b) = k) := fun hh => h1 (h2.trans hh)
          simp [upsertEdge, edgeLookup, h1, h2, h3]
        · simp [upsertEdge, edgeLookup, h1, h2, ih]

theorem edgeLookup_contentStep_isSome (m : ℚ) (g : ContentGraph)
    (p : Propagation) (a b : String)
    (h : (edgeLookup g a b).isSome) :
    (edgeLookup (contentStep m g p) a b).isSome := by
  unfold contentStep
  split
  · exact h
  · rw [edgeLookup_upsert]
    split <;> simp [h]

theorem edgeLookup_contentFold_isSome (m : ℚ) (l : List Propagation)
    (g : ContentGraph) (a b : String) :
    (edgeLookup (l.foldl (contentStep m) g) a b).isSome ↔
      (edgeLookup g a b).isSome ∨
        ∃ p ∈ l, p.source_content_id = a ∧ p.target_content_id = b ∧
          simSkip m p = false := by
  induction l generalizing g with
  | nil => simp
  | cons p l ih =>
      rw [List.foldl_cons, ih]
      by_cases hskip : simSkip m p = true
      · rw [show contentStep m g p = g from by simp [contentStep, hskip]]
        constructor
        · rintro (hg | ⟨q, hq, hrest⟩)
          · exact Or.inl hg
          · exact Or.inr ⟨q, List.mem_cons_of_mem _ hq, hrest⟩
        · rintro (hg | ⟨q, hq, h1, h2, h3⟩)
          · exact Or.inl hg
          · rcases List.mem_cons.mp hq with rfl | hq
            · simp [hskip] at h3
            · exact Or.inr ⟨q, hq, h1, h2, h3⟩
      · rw [show contentStep m g p = upsertEdge g
            (p.source_content_id, p.target_content_id) (contentEdgeData p) from by
          simp [contentStep, hskip]]
        constructor
        · rintro (hg | ⟨q, hq, hrest⟩)
          · rw [edgeLookup_upsert] at hg
            by_cases heq : (a, b) = (p.source_content_id, p.target_content_id)
            · exact Or.inr ⟨p, List.mem_cons_self p l,
                (congrArg Prod.fst heq).symm, (congrArg Prod.snd heq).symm,
                by simpa using hskip⟩
            · rw [if_neg heq] at hg
              exact Or.inl hg
          · exact Or.inr ⟨q, List.mem_cons_of_mem _ hq, hrest⟩
        · rintro (hg | ⟨q, hq, h1, h2, h3⟩)
          · left
            rw [edgeLookup_upsert]
            split
            · rfl
            · exact hg
          · rcases List.mem_cons.mp hq with rfl | hq
            · left
              rw [edgeLookup_upsert, if_pos (by rw [h1, h2])]
              rfl
            · exact Or.inr ⟨q, hq, h1, h2, h3⟩

theorem edgeLookup_contentFold_provenance (m : ℚ) (l : List Propagation)
    (g : ContentGraph) (a b : String) (d : ContentEdgeData)
    (h : edgeLookup (l.foldl (contentStep m) g) a b = some d) :
    (∃ p ∈ l, p.source_content_id = a ∧ p.target_content_id = b ∧
        simSkip m p = false ∧ d = contentEdgeData p) ∨
      edgeLookup g a b = some d := by
  induction l generalizing g with
  | nil => exact Or.inr h
  | cons p l ih =>
      rw [List.foldl_cons] at h
      rcases ih (contentStep m g p) h with hin | hbase
      · obtain ⟨q, hq, hrest⟩ := hin
        exact Or.inl ⟨q, List.mem_cons_of_mem _ hq, hrest⟩
      · by_cases hskip : simSkip m p = true
        · rw [show contentStep m g p = g from by simp [contentStep, hskip]] at hbase
          exact Or.inr hbase
        · rw [show contentStep m g p = upsertEdge g
              (p.source_content_id, p.target_content_id) (contentEdgeData p) from by
            simp [contentStep, hskip]] at hbase
          rw [edgeLookup_upsert] at hbase
          by_cases heq : (a, b) = (p.source_content_id, p.target_content_id)
          · rw [if_pos heq] at hbase
            cases hbase
            exact Or.inl ⟨p, List.mem_cons_self p l,
              (congrArg Prod.fst heq).symm, (congrArg Prod.snd heq).symm,
              by simpa using hskip, rfl⟩
          · rw [if_neg heq] at hbase
            exact Or.inr hbase

/-- **C5 (amended).** In `build_content_graph`, an edge between `a`
and `b` is present exactly when some window link has those endpoints
and passes the similarity filter, where — because of Python truthiness
— passing means: the similarity score is absent, **or equal to 0**, or
at least the threshold.  Any present edge carries the attribute record
(propagation type, similarity defaulted to 0, mutation flag, time
delta defaulted to 0) of such a link. -/
theorem spec_C5_amended (snap : Snapshot) (cutoff : Int) (m : ℚ)
    (g0 : ContentGraph) (a b : String) :
    ((edgeLookup (build_content_graph snap cutoff m g0) a b).isSome ↔
      ∃ p ∈ windowProps snap cutoff,
        p.source_content_id = a ∧ p.target_content_id = b ∧ simSkip m p = false)
    ∧ (∀ d, edgeLookup (build_content_graph snap cutoff m g0) a b = some d →
        ∃ p ∈ windowProps snap cutoff,
          p.source_content_id = a ∧ p.target_content_id = b ∧
          simSkip m p = false ∧ d = contentEdgeData p)
    ∧ (∀ p, simSkip m p = false ↔
        (p.similarity_score = none ∨ p.similarity_score = some 0 ∨
          ∃ s, p.similarity_score = some s ∧ m ≤ s)) := by
  refine ⟨?_, ?_, ?_⟩
  · unfold build_content_graph
    rw [edgeLookup_contentFold_isSome]
    simp [edgeLookup]
  · intro d hd
    unfold build_content_graph at hd
    rcases edgeLookup_contentFold_provenance m _ _ a b d hd with hin | hbase
    · exact hin
    · exact absurd hbase (by simp [edgeLookup])
  · intro p
    rcases hs : p.similarity_score with _ | s
    · simp [simSkip, hs]
    · by_cases h0 : s = 0
      · subst h0
        simp [simSkip, hs]
      · by_cases hlt : s < m
        · simp [simSkip, hs, h0, hlt, not_le.mpr hlt]
        · simp [simSkip, hs, h0, hlt, not_lt.mp hlt]

/-- **C5 (counterexample).** The claim "an edge is added exactly when
the similarity score, if present, is ≥ the threshold" is false: with a
present similarity score of exactly `0` and threshold `1/2`, the score
is present and below the threshold, yet the edge is added (Python
truthiness treats `0.0` like an absent score). -/
theorem spec_C5_counterexample :
    edgeLookup (build_content_graph snapZeroSim 0 (1/2) []) "c1" "c2" =
      some { propagation_type := "similar", similarity := 0,
             mutation := false, time_delta := 0 }
    ∧ windowProps snapZeroSim 0 = snapZeroSim.propagations
    ∧ snapZeroSim.propagations.map Propagation.similarity_score = [some 0]
    ∧ (0 : ℚ) < 1/2 := by
  refine ⟨by decide, by decide, by decide, by norm_num⟩

/-! ## Lemmas about the superspreader ranking -/

theorem mem_find_superspreaders {g : SourceGraph} {top_n : ℕ}
    {prE betE : Except Unit (String → ℚ)} {r : SuperspreaderInfo}
    (h : r ∈ find_superspreaders g top_n prE betE) :
    ∃ n ∈ g.nodes, r = mkSpreader g (centralityD prE) (centralityD betE) n.1 n.2 := by
  unfold find_superspreaders at h
  split at h
  · simp at h
  · have h1 : r ∈ (g.nodes.map fun n =>
        mkSpreader g (centralityD prE) (centralityD betE) n.1 n.2).insertionSort scoreGE :=
      List.take_subset _ _ h
    have h2 := (List.perm_insertionSort scoreGE _).mem_iff.mp h1
    obtain ⟨n, hn, hr⟩ := List.mem_map.mp h2
    exact ⟨n, hn, hr.symm⟩

/-- **C3.** `find_superspreaders` returns at most `top_n` records,
sorted by descending combined score; each record's score is
`0.4·out_degree + 0.4·(100·pagerank) + 0.2·(10·betweenness)` over its
own fields, its `out_degree` field is the node's out-degree; a
zero-node graph yields the empty list. -/
theorem spec_C3 (g : SourceGraph) (top_n : ℕ)
    (prE betE : Except Unit (String → ℚ)) :
    (∀ r ∈ find_superspreaders g top_n prE betE,
        r.score = 0.4 * (r.out_degree : ℚ) + 0.4 * (100 * r.pagerank) +
          0.2 * (10 * r.betweenness)
        ∧ r.out_degree = outDegree g r.id)
    ∧ (find_superspreaders g top_n prE betE).length ≤ top_n
    ∧ List.Sorted scoreGE (find_superspreaders g top_n prE betE)
    ∧ (g.nodes = [] → find_superspreaders g top_n prE betE = []) := by
  refine ⟨?_, ?_, ?_, ?_⟩
  · intro r hr
    obtain ⟨n, hn, rfl⟩ := mem_find_superspreaders hr
    simp only [mkSpreader]
    exact ⟨by ring, trivial⟩
  · unfold find_superspreaders
    split
    · simp
    · rw [List.length_take]
      exact min_le_left _ _
  · unfold find_superspreaders
    split
    · simp
    · exact List.Pairwise.sublist (List.take_sublist _ _)
        (List.sorted_insertionSort scoreGE _)
  · intro h
    unfold find_superspreaders
    simp [h]

/-- The concrete value of the ranking on `oneNodeGraph`. -/
theorem find_superspreaders_oneNode (prE betE : Except Unit (String → ℚ))
    (hpr : centralityD prE "A" = 0) (hbet : centralityD betE "A" = 0) :
    find_superspreaders oneNodeGraph 5 prE betE = [recA] := by
  norm_num [find_superspreaders, oneNodeGraph, mkSpreader, recA,
    outDegree, List.insertionSort, hpr, hbet]

/-- **C3 (witness).** Instantiation on a concrete one-node graph. -/
theorem spec_C3_witness :
    (recA.score = 0.4 * (recA.out_degree : ℚ) + 0.4 * (100 * recA.pagerank) +
        0.2 * (10 * recA.betweenness)
      ∧ recA.out_degree = outDegree oneNodeGraph recA.id)
    ∧ (find_superspreaders oneNodeGraph 5 (.ok fun _ => 0) (.error ())).length ≤ 5 :=
  ⟨(spec_C3 oneNodeGraph 5 (.ok fun _ => 0) (.error ())).1 recA
      (by rw [find_superspreaders_oneNode (.ok fun _ => 0) (.error ()) rfl rfl]
          exact List.mem_singleton_self recA),
   (spec_C3 oneNodeGraph 5 (.ok fun _ => 0) (.error ())).2.1⟩

/-- **C6.** A failed PageRank computation yields pagerank 0 on every
emitted record, likewise for betweenness; `detect_communities` returns
the empty mapping on fewer than 2 nodes and on a failed partition;
none of these propagates an error. -/
theorem spec_C6 (g : SourceGraph) (top_n : ℕ)
    (prE betE : Except Unit (String → ℚ))
    (louvainE : Except Unit (List (String × ℕ))) :
    (∀ r ∈ find_superspreaders g top_n (.error ()) betE, r.pagerank = 0)
    ∧ (∀ r ∈ find_superspreaders g top_n prE (.error ()), r.betweenness = 0)
    ∧ (g.nodes.length < 2 → detect_communities g louvainE = [])
    ∧ detect_communities g (.error ()) = [] := by
  refine ⟨?_, ?_, ?_, ?_⟩
  · intro r hr
    obtain ⟨n, hn, rfl⟩ := mem_find_superspreaders hr
    simp [mkSpreader, centralityD]
  · intro r hr
    obtain ⟨n, hn, rfl⟩ := mem_find_superspreaders hr
    simp [mkSpreader, centralityD]
  · intro h
    simp [detect_communities, h]
  · unfold detect_communities
    split <;> rfl

/-- **C6 (witness).** Instantiation on a concrete one-node graph. -/
theorem spec_C6_witness :
    recA.pagerank = 0 ∧ recA.betweenness = 0
    ∧ detect_communities oneNodeGraph (.ok [("A", 0)]) = [] :=
  ⟨(spec_C6 oneNodeGraph 5 (.error ()) (.error ()) (.ok [("A", 0)])).1 recA
      (by rw [find_superspreaders_oneNode (.error ()) (.error ()) rfl rfl]
          exact List.mem_singleton_self recA),
   (spec_C6 oneNodeGraph 5 (.error ()) (.error ()) (.ok [("A", 0)])).2.1 recA
      (by rw [find_superspreaders_oneNode (.error ()) (.error ()) rfl rfl]
          exact List.mem_singleton_self recA),
   (spec_C6 oneNodeGraph 5 (.error ()) (.error ()) (.ok [("A", 0)])).2.2.1 (by decide)⟩

/-! ## Network statistics -/

/-- The aggregator never sets a nonzero community count. -/
theorem community_count_stats (g : SourceGraph) (connCheck : Except Unit Bool) :
    (get_network_stats g connCheck).community_count = 0 := by
  simp only [get_network_stats]
  split <;> rfl

/-- **C7.** `get_network_stats`: density is `edges/(nodes·(nodes−1))`
and 0 when nodes < 2 (so the 2-node 1-edge graph yields 1/2);
avg_degree is the summed (in+out) degree divided by the node count and
0 on an empty graph; `is_connected` reflects the undirected
connectivity check when it succeeds and is false when it fails, never
an error. -/
theorem spec_C7 (g : SourceGraph) (connCheck : Except Unit Bool) :
    ((get_network_stats g connCheck).density =
      if 2 ≤ g.nodes.length then
        (g.edges.length : ℚ) / ((g.nodes.length : ℚ) * ((g.nodes.length : ℚ) - 1))
      else 0)
    ∧ ((get_network_stats g connCheck).avg_degree =
      if g.nodes.length = 0 then 0 else (degreeSum g : ℚ) / (g.nodes.length : ℚ))
    ∧ (0 < g.nodes.length →
        (get_network_stats g connCheck).is_connected =
          match connCheck with
          | .ok b => b
          | .error _ => false)
    ∧ ((get_network_stats g (.ok (isConnectedUndirected g))).is_connected =
        (decide (0 < g.nodes.length) && isConnectedUndirected g))
    ∧ (get_network_stats twoNodeOneEdgeGraph connCheck).density = 1/2 := by
  refine ⟨?_, ?_, ?_, ?_, ?_⟩
  · have hd : (get_network_stats g connCheck).density =
        if 0 < g.nodes.length then nxDensity g.nodes.length g.edges.length else 0 := by
      simp only [get_network_stats]
      split <;> rfl
    rw [hd]
    by_cases h0 : g.nodes.length = 0
    · simp [h0, nxDensity]
    by_cases h1 : g.nodes.length = 1
    · simp [h1, nxDensity]
    rw [if_pos (by omega), if_pos (by omega)]
    unfold nxDensity
    by_cases hm : g.edges.length = 0
    · simp [hm]
    · rw [if_neg (not_or.mpr ⟨hm, by omega⟩)]
  · simp only [get_network_stats]
    split
    · rw [if_neg (by omega)]
    · rw [if_pos (by omega)]
  · intro hn
    simp only [get_network_stats]
    rw [if_pos hn]
  · by_cases hn : 0 < g.nodes.length
    · simp only [get_network_stats]
      rw [if_pos hn]
      simp [hn]
    · simp only [get_network_stats]
      rw [if_neg hn]
      simp [hn]
  · norm_num [get_network_stats, twoNodeOneEdgeGraph, nxDensity]

/-- **C7 (witness).** The connectivity conjunct instantiated on the
concrete 2-node 1-edge graph. -/
theorem spec_C7_witness :
    (get_network_stats twoNodeOneEdgeGraph
        (.ok (isConnectedUndirected twoNodeOneEdgeGraph))).is_connected =
      match (.ok (isConnectedUndirected twoNodeOneEdgeGraph) : Except Unit Bool) with
      | .ok b => b
      | .error _ => false :=
  (spec_C7 twoNodeOneEdgeGraph
    (.ok (isConnectedUndirected twoNodeOneEdgeGraph))).2.2.1 (by decide)

/-! ## Community count wiring in the full run -/

/-- **C8 (counterexample).** On a three-active-source snapshot with a
successful Louvain partition of three communities, the full run
reports the distinct-community count (3) in the separate communities
result, while the stats record's `community_count` stays 0 — the
aggregator accepts no community count from its caller. -/
theorem spec_C8_counterexample :
    ((run_full_analysis snapThreeSources 0 (1/2) (.error ()) (.ok fun _ => 0)
        (.ok fun _ => 0) (.ok [("A", 0), ("B", 1), ("C", 2)])
        emptyState).2.stats.community_count = 0)
    ∧ ((run_full_analysis snapThreeSources 0 (1/2) (.error ()) (.ok fun _ => 0)
        (.ok fun _ => 0) (.ok [("A", 0), ("B", 1), ("C", 2)])
        emptyState).2.communities = some (3, [("A", 0), ("B", 1), ("C", 2)]))
    ∧ (0 : ℕ) ≠ 3 := by
  refine ⟨rfl, by decide, by decide⟩

/-- **C8 (amended).** `get_network_stats` takes no community count and
always returns `community_count = 0`, also inside `run_full_analysis`;
there, the distinct-community count is reported in the separate
`communities` component (present only when the source graph has more
than 2 nodes), not in the stats record. -/
theorem spec_C8_amended (g : SourceGraph) (connCheck : Except Unit Bool)
    (snap : Snapshot) (cutoff : Int) (m : ℚ)
    (prE betE : Except Unit (String → ℚ))
    (louvainE : Except Unit (List (String × ℕ))) (st : AnalyzerState) :
    (get_network_stats g connCheck).community_count = 0
    ∧ (run_full_analysis snap cutoff m connCheck prE betE louvainE
        st).2.stats.community_count = 0
    ∧ (run_full_analysis snap cutoff m connCheck prE betE louvainE
        st).2.communities =
      (if 2 < (build_source_graph snap cutoff st.source_graph).nodes.length then
        some ((((detect_communities (build_source_graph snap cutoff st.source_graph)
            louvainE).map Prod.snd).dedup).length,
          detect_communities (build_source_graph snap cutoff st.source_graph) louvainE)
      else none) := by
  refine ⟨community_count_stats g connCheck, ?_, ?_⟩
  · simp only [run_full_analysis]
    exact community_count_stats _ _
  · simp only [run_full_analysis, buildSourceGraphS, buildContentGraphS]

/-! ## Idempotence of the full run -/

/-- **C9.** Both graph builders clear the instance state first, so the
full run is a function of the snapshot and window alone: two runs from
arbitrary prior states produce identical graphs, statistics and
results, and rerunning from the state a run left behind reproduces the
same output. -/
theorem spec_C9 (snap : Snapshot) (cutoff : Int) (m : ℚ)
    (connCheck : Except Unit Bool) (prE betE : Except Unit (String → ℚ))
    (louvainE : Except Unit (List (String × ℕ))) (st st' : AnalyzerState) :
    (run_full_analysis snap cutoff m connCheck prE betE louvainE st =
      run_full_analysis snap cutoff m connCheck prE betE louvainE st')
    ∧ (run_full_analysis snap cutoff m connCheck prE betE louvainE
        (run_full_analysis snap cutoff m connCheck prE betE louvainE st).1 =
      run_full_analysis snap cutoff m connCheck prE betE louvainE st) := by
  cases st
  cases st'
  exact ⟨rfl, rfl⟩

/-! ## Lemmas about the coordination sweep -/

theorem sweep_hours (w : Int) (m : ℕ) :
    ∀ (cs : List Content) (seen : List Int),
      (∀ e ∈ sweep w m cs seen, hourKey e.timestamp ∉ seen)
      ∧ List.Pairwise (fun e1 e2 => hourKey e1.timestamp ≠ hourKey e2.timestamp)
          (sweep w m cs seen) := by
  intro cs
  induction cs with
  | nil =>
      intro seen
      simp [sweep]
  | cons c rest ih =>
      intro seen
      cases hp : c.published_at with
      | none =>
          have hstep : sweep w m (c :: rest) seen = sweep w m rest seen := by
            simp [sweep, hp]
          rw [hstep]
          exact ih seen
      | some t =>
          by_cases h1 : m ≤ (takeWindow t w (c :: rest)).length
          · by_cases h2 : m ≤ (windowSources (takeWindow t w (c :: rest))).length
            · by_cases h3 : hourKey t ∈ seen
              · have hstep : sweep w m (c :: rest) seen = sweep w m rest seen := by
                  simp [sweep, hp, h1, h2, h3]
                rw [hstep]
                exact ih seen
              · have hstep : sweep w m (c :: rest) seen =
                    { timestamp := t,
                      content_count := (takeWindow t w (c :: rest)).length,
                      unique_sources := (windowSources (takeWindow t w (c :: rest))).length,
                      window_seconds := w,
                      content_ids := ((takeWindow t w (c :: rest)).take 10).map (·.id) } ::
                      sweep w m rest (hourKey t :: seen) := by
                  simp [sweep, hp, h1, h2, h3]
                rw [hstep]
                obtain ⟨ih1, ih2⟩ := ih (hourKey t :: seen)
                constructor
                · intro e he
                  rcases List.mem_cons.mp he with rfl | he
                  · exact h3
                  · intro hc
                    exact ih1 e he (List.mem_cons_of_mem _ hc)
                · refine List.pairwise_cons.mpr ⟨?_, ih2⟩
                  intro e he hc
                  exact ih1 e he (by rw [← hc]; exact List.mem_cons_self _ _)
            · have hstep : sweep w m (c :: rest) seen = sweep w m rest seen := by
                simp [sweep, hp, h1, h2]
              rw [hstep]
              exact ih seen
          · have hstep : sweep w m (c :: rest) seen = sweep w m rest seen := by
              simp [sweep, hp, h1]
            rw [hstep]
            exact ih seen

theorem sweep_event_shape (w : Int) (m : ℕ) :
    ∀ (cs : List Content) (seen : List Int) (e : CoordinatedBehaviorEvent),
      e ∈ sweep w m cs seen →
      m ≤ e.content_count ∧ m ≤ e.unique_sources ∧ e.window_seconds = w
      ∧ e.content_ids.length = min 10 e.content_count
      ∧ ∃ c ∈ cs, c.published_at = some e.timestamp := by
  intro cs
  induction cs with
  | nil =>
      intro seen e he
      simp [sweep] at he
  | cons c rest ih =>
      intro seen e he
      have tail : ∀ s, e ∈ sweep w m rest s →
          m ≤ e.content_count ∧ m ≤ e.unique_sources ∧ e.window_seconds = w
          ∧ e.content_ids.length = min 10 e.content_count
          ∧ ∃ c' ∈ c :: rest, c'.published_at = some e.timestamp := by
        intro s hmem
        obtain ⟨g1, g2, g3, g4, c', hc', hpub⟩ := ih s e hmem
        exact ⟨g1, g2, g3, g4, c', List.mem_cons_of_mem _ hc', hpub⟩
      cases hp : c.published_at with
      | none =>
          rw [show sweep w m (c :: rest) seen = sweep w m rest seen from by
            simp [sweep, hp]] at he
          exact tail seen he
      | some t =>
          by_cases h1 : m ≤ (takeWindow t w (c :: rest)).length
          · by_cases h2 : m ≤ (windowSources (takeWindow t w (c :: rest))).length
            · by_cases h3 : hourKey t ∈ seen
              · rw [show sweep w m (c :: rest) seen = sweep w m rest seen from by
                  simp [sweep, hp, h1, h2, h3]] at he
                exact tail seen he
              · rw [show sweep w m (c :: rest) seen =
                    { timestamp := t,
                      content_count := (takeWindow t w (c :: rest)).length,
                      unique_sources := (windowSources (takeWindow t w (c :: rest))).length,
                      window_seconds := w,
                      content_ids := ((takeWindow t w (c :: rest)).take 10).map (·.id) } ::
                      sweep w m rest (hourKey t :: seen) from by
                  simp [sweep, hp, h1, h2, h3]] at he
                rcases List.mem_cons.mp he with rfl | he
                · refine ⟨h1, h2, rfl, ?_, c, List.mem_cons_self c rest, hp⟩
                  simp [List.length_take]
                · exact tail _ he
            · rw [show sweep w m (c :: rest) seen = sweep w m rest seen from by
                simp [sweep, hp, h1, h2]] at he
              exact tail seen he
          · rw [show sweep w m (c :: rest) seen = sweep w m rest seen from by
              simp [sweep, hp, h1]] at he
            exact tail seen he

/-- **C2 (amended).** Emitted events are bucketed by the truncated
hour of the anchor timestamp and only the first event per hour bucket
is kept (all emitted events carry pairwise distinct hour buckets).
The sweep index, however, advances one item at a time — there is no
skip past the matched window — so an overlapping sub-window of the
same burst is re-reported whenever its anchor falls in a different
hour bucket. -/
theorem spec_C2_amended (contents : List Content) (w : Int) (m : ℕ) :
    List.Pairwise (fun e1 e2 => hourKey e1.timestamp ≠ hourKey e2.timestamp)
      (detect_coordinated_behavior contents w m) := by
  simp only [detect_coordinated_behavior]
  split
  · exact List.Pairwise.nil
  · exact (sweep_hours w m _ []).2

/-- **C2 (counterexample).** A burst of four items within one
300-second window, straddling the hour boundary at 3600 s: the sweep
emits the full window anchored at 3500 s and then — because the index
advances one item at a time instead of jumping past the matched
window — re-reports the sub-window `[b, c, d]` of the same burst as a
second event anchored at 3650 s, whose hour bucket differs. -/
theorem spec_C2_counterexample :
    detect_coordinated_behavior burstAcrossHour 300 3 =
      [{ timestamp := 3500, content_count := 4, unique_sources := 4,
         window_seconds := 300, content_ids := ["a", "b", "c", "d"] },
       { timestamp := 3650, content_count := 3, unique_sources := 3,
         window_seconds := 300, content_ids := ["b", "c", "d"] }]
    ∧ (["b", "c", "d"] : List String).all
        (fun i => ["a", "b", "c", "d"].contains i) = true
    ∧ hourKey 3500 ≠ hourKey 3650 := by
  refine ⟨by decide, by decide, by decide⟩

/-- **C4.** The coordination detector on three items 10 s apart in a
30-second window with `min_actors = 3`: from three distinct sources,
exactly one event with `content_count = 3` and `unique_sources = 3`;
from two distinct sources, no event.  In general every emitted event
records at least `min_actors` items from at least `min_actors`
distinct sources, carries the window length, at most 10 sample content
ids (exactly `min 10 content_count`), and is anchored at the
publication timestamp of one of the input items. -/
theorem spec_C4 :
    detect_coordinated_behavior scenThree 30 3 = [eventThree]
    ∧ detect_coordinated_behavior scenTwo 30 3 = []
    ∧ ∀ (contents : List Content) (w : Int) (m : ℕ) e,
        e ∈ detect_coordinated_behavior contents w m →
        m ≤ e.content_count ∧ m ≤ e.unique_sources ∧ e.window_seconds = w
        ∧ e.content_ids.length = min 10 e.content_count
        ∧ ∃ c ∈ contents, c.published_at = some e.timestamp := by
  refine ⟨by decide, by decide, ?_⟩
  intro contents w m e he
  simp only [detect_coordinated_behavior] at he
  split at he
  · simp at he
  · obtain ⟨g1, g2, g3, g4, c, hc, hpub⟩ := sweep_event_shape w m _ [] e he
    have hc2 : c ∈ contents.filter (fun c => c.published_at.isSome) :=
      (List.perm_insertionSort timeLE _).mem_iff.mp hc
    exact ⟨g1, g2, g3, g4, c, List.mem_of_mem_filter hc2, hpub⟩

/-- **C4 (witness).** The general conjunct instantiated at the event
emitted on the concrete three-source scenario. -/
theorem spec_C4_witness :
    3 ≤ eventThree.content_count ∧ 3 ≤ eventThree.unique_sources
    ∧ eventThree.window_seconds = 30
    ∧ eventThree.content_ids.length = min 10 eventThree.content_count
    ∧ ∃ c ∈ scenThree, c.published_at = some eventThree.timestamp :=
  spec_C4.2.2 scenThree 30 3 eventThree (by decide)

/-! ## Lemmas about the node dictionary of the source graph -/

theorem mem_keys_upsertNode {ns : List (String × Option NodeAttrs)} {i : String}
    {a : NodeAttrs} {x : String} :
    x ∈ (upsertNode ns i a).map Prod.fst ↔ x ∈ ns.map Prod.fst ∨ x = i := by
  induction ns with
  | nil => simp [upsertNode]
  | cons n rest ih =>
      by_cases h1 : n.1 = i
      · subst h1
        simp [upsertNode]
        tauto
      · simp [upsertNode, h1, ih]
        tauto

theorem mem_entries_upsertNode {ns : List (String × Option NodeAttrs)} {i : String}
    {a : NodeAttrs} {n : String × Option NodeAttrs}
    (h : n ∈ upsertNode ns i a) : n ∈ ns ∨ n = (i, some a) := by
  induction ns with
  | nil =>
      simp [upsertNode] at h
      exact Or.inr h
  | cons e rest ih =>
      by_cases h1 : e.1 = i
      · simp only [upsertNode, if_pos h1, List.mem_cons] at h
        rcases h with rfl | h
        · exact Or.inr rfl
        · exact Or.inl (List.mem_cons_of_mem _ h)
      · simp only [upsertNode, if_neg h1, List.mem_cons] at h
        rcases h with rfl | h
        · exact Or.inl (List.mem_cons_self _ _)
        · rcases ih h with h | h
          · exact Or.inl (List.mem_cons_of_mem _ h)
          · exact Or.inr h

theorem nodup_keys_upsertNode {ns : List (String × Option NodeAttrs)} {i : String}
    {a : NodeAttrs} (h : (ns.map Prod.fst).Nodup) :
    ((upsertNode ns i a).map Prod.fst).Nodup := by
  induction ns with
  | nil => simp [upsertNode]
  | cons e rest ih =>
      simp only [List.map_cons, List.nodup_cons] at h
      by_cases h1 : e.1 = i
      · subst h1
        simpa [upsertNode, List.nodup_cons] using h
      · simp only [upsertNode, if_neg h1, List.map_cons, List.nodup_cons]
        refine ⟨fun hmem => ?_, ih h.2⟩
        rcases mem_keys_upsertNode.mp hmem with hm | hm
        · exact h.1 hm
        · exact h1 hm

theorem nodes_ensureNode (g : SourceGraph) (i : String) :
    (ensureNode g i).nodes =
      if g.nodes.any (fun n => decide (n.1 = i)) then g.nodes
      else g.nodes ++ [(i, none)] := by
  unfold ensureNode
  split <;> simp_all

theorem mem_keys_ensureNode {g : SourceGraph} {i x : String} :
    x ∈ (ensureNode g i).nodes.map Prod.fst ↔
      x ∈ g.nodes.map Prod.fst ∨ x = i := by
  rw [nodes_ensureNode]
  split
  · rename_i h
    constructor
    · exact Or.inl
    · rintro (hx | rfl)
      · exact hx
      · simp only [List.any_eq_true, decide_eq_true_eq] at h
        obtain ⟨n, hn, hni⟩ := h
        exact hni ▸ List.mem_map_of_mem Prod.fst hn
  · simp

theorem mem_entries_ensureNode {g : SourceGraph} {i : String}
    {n : String × Option NodeAttrs} (h : n ∈ (ensureNode g i).nodes) :
    n ∈ g.nodes ∨ n = (i, none) := by
  rw [nodes_ensureNode] at h
  split at h
  · exact Or.inl h
  · rcases List.mem_append.mp h with h | h
    · exact Or.inl h
    · exact Or.inr (by simpa using h)

theorem nodup_keys_ensureNode {g : SourceGraph} {i : String}
    (h : (g.nodes.map Prod.fst).Nodup) :
    ((ensureNode g i).nodes.map Prod.fst).Nodup := by
  rw [nodes_ensureNode]
  split
  · exact h
  · rename_i hany
    rw [List.map_append]
    simp only [List.any_eq_true, decide_eq_true_eq, not_exists] at hany
    push_neg at hany
    refine List.Nodup.append h (by simp) ?_
    intro x hx hx2
    simp only [List.map_cons, List.map_nil, List.mem_singleton] at hx2
    subst hx2
    obtain ⟨n, hn, hni⟩ := List.mem_map.mp hx
    exact hany n hn hni

theorem nodes_addWeightedEdge (g : SourceGraph) (k : String × String) (w : ℕ) :
    (addWeightedEdge g k w).nodes = (ensureNode (ensureNode g k.1) k.2).nodes := rfl

theorem mem_keys_addWeightedEdge {g : SourceGraph} {k : String × String}
    {w : ℕ} {x : String} :
    x ∈ (addWeightedEdge g k w).nodes.map Prod.fst ↔
      x ∈ g.nodes.map Prod.fst ∨ x = k.1 ∨ x = k.2 := by
  rw [nodes_addWeightedEdge, mem_keys_ensureNode, mem_keys_ensureNode]
  tauto

theorem mem_entries_addWeightedEdge {g : SourceGraph} {k : String × String}
    {w : ℕ} {n : String × Option NodeAttrs}
    (h : n ∈ (addWeightedEdge g k w).nodes) :
    n ∈ g.nodes ∨ n = (k.1, none) ∨ n = (k.2, none) := by
  rw [nodes_addWeightedEdge] at h
  rcases mem_entries_ensureNode h with h | h
  · rcases mem_entries_ensureNode h with h | h
    · exact Or.inl h
    · exact Or.inr (Or.inl h)
  · exact Or.inr (Or.inr h)

theorem nodup_keys_addWeightedEdge {g : SourceGraph} {k : String × String} {w : ℕ}
    (h : (g.nodes.map Prod.fst).Nodup) :
    ((addWeightedEdge g k w).nodes.map Prod.fst).Nodup := by
  rw [nodes_addWeightedEdge]
  exact nodup_keys_ensureNode (nodup_keys_ensureNode h)

/-! ## The node set of the built source graph -/

theorem mem_keys_addNodeFold (srcs : List Source) (g : SourceGraph) (x : String) :
    (x ∈ ((srcs.foldl (fun g s => addNodeAttrs g s.id (sourceAttrs s)) g)).nodes.map
        Prod.fst ↔
      x ∈ g.nodes.map Prod.fst ∨ ∃ s ∈ srcs, x = s.id) := by
  induction srcs generalizing g with
  | nil => simp
  | cons s rest ih =>
      rw [List.foldl_cons, ih]
      have : (addNodeAttrs g s.id (sourceAttrs s)).nodes =
          upsertNode g.nodes s.id (sourceAttrs s) := rfl
      rw [this, mem_keys_upsertNode]
      simp only [List.mem_cons]
      constructor
      · rintro ((hx | hx) | ⟨s', hs', hx⟩)
        · exact Or.inl hx
        · exact Or.inr ⟨s, Or.inl rfl, hx⟩
        · exact Or.inr ⟨s', Or.inr hs', hx⟩
      · rintro (hx | ⟨s', hs' | hs', hx⟩)
        · exact Or.inl (Or.inl hx)
        · exact Or.inl (Or.inr (hs' ▸ hx))
        · exact Or.inr ⟨s', hs', hx⟩

theorem mem_entries_addNodeFold (srcs : List Source) (g : SourceGraph)
    {n : String × Option NodeAttrs}
    (h : n ∈ ((srcs.foldl (fun g s => addNodeAttrs g s.id (sourceAttrs s)) g)).nodes) :
    n ∈ g.nodes ∨ ∃ s ∈ srcs, n = (s.id, some (sourceAttrs s)) := by
  induction srcs generalizing g with
  | nil => exact Or.inl h
  | cons s rest ih =>
      rw [List.foldl_cons] at h
      rcases ih _ h with h2 | ⟨s', hs', hn⟩
      · rcases mem_entries_upsertNode h2 with h3 | h3
        · exact Or.inl h3
        · exact Or.inr ⟨s, List.mem_cons_self _ _, h3⟩
      · exact Or.inr ⟨s', List.mem_cons_of_mem _ hs', hn⟩

theorem nodup_keys_addNodeFold (srcs : List Source) (g : SourceGraph)
    (h : (g.nodes.map Prod.fst).Nodup) :
    (((srcs.foldl (fun g s => addNodeAttrs g s.id (sourceAttrs s)) g)).nodes.map
      Prod.fst).Nodup := by
  induction srcs generalizing g with
  | nil => exact h
  | cons s rest ih =>
      rw [List.foldl_cons]
      exact ih _ (nodup_keys_upsertNode h)

theorem mem_keys_weightFold (entries : List ((String × String) × ℕ))
    (g : SourceGraph) (x : String) :
    (x ∈ ((entries.foldl (fun g e => addWeightedEdge g e.1 e.2) g)).nodes.map
        Prod.fst ↔
      x ∈ g.nodes.map Prod.fst ∨ ∃ e ∈ entries, x = e.1.1 ∨ x = e.1.2) := by
  induction entries generalizing g with
  | nil => simp
  | cons e rest ih =>
      rw [List.foldl_cons, ih, mem_keys_addWeightedEdge]
      simp only [List.mem_cons]
      constructor
      · rintro ((hx | hx | hx) | ⟨e', he', hx⟩)
        · exact Or.inl hx
        · exact Or.inr ⟨e, Or.inl rfl, Or.inl hx⟩
        · exact Or.inr ⟨e, Or.inl rfl, Or.inr hx⟩
        · exact Or.inr ⟨e', Or.inr he', hx⟩
      · rintro (hx | ⟨e', he' | he', hx⟩)
        · exact Or.inl (Or.inl hx)
        · subst he'
          exact Or.inl (Or.inr hx)
        · exact Or.inr ⟨e', he', hx⟩

theorem mem_entries_weightFold (entries : List ((String × String) × ℕ))
    (g : SourceGraph) {n : String × Option NodeAttrs}
    (h : n ∈ ((entries.foldl (fun g e => addWeightedEdge g e.1 e.2) g)).nodes) :
    n ∈ g.nodes ∨ n.2 = none := by
  induction entries generalizing g with
  | nil => exact Or.inl h
  | cons e rest ih =>
      rw [List.foldl_cons] at h
      rcases ih _ h with h2 | h2
      · rcases mem_entries_addWeightedEdge h2 with h3 | h3 | h3
        · exact Or.inl h3
        · exact Or.inr (by rw [h3])
        · exact Or.inr (by rw [h3])
      · exact Or.inr h2

theorem nodup_keys_weightFold (entries : List ((String × String) × ℕ))
    (g : SourceGraph) (h : (g.nodes.map Prod.fst).Nodup) :
    (((entries.foldl (fun g e => addWeightedEdge g e.1 e.2) g)).nodes.map
      Prod.fst).Nodup := by
  induction entries generalizing g with
  | nil => exact h
  | cons e rest ih =>
      rw [List.foldl_cons]
      exact ih _ (nodup_keys_addWeightedEdge h)

theorem nodup_keys_build (snap : Snapshot) (cutoff : Int) (g0 : SourceGraph) :
    ((build_source_graph snap cutoff g0).nodes.map Prod.fst).Nodup := by
  unfold build_source_graph
  exact nodup_keys_weightFold _ _ (nodup_keys_addNodeFold _ _ (by simp))

/-- Every attributed node of the built source graph is an active
source. -/
theorem attrs_active_build (snap : Snapshot) (cutoff : Int) (g0 : SourceGraph)
    {n : String × Option NodeAttrs}
    (h : n ∈ (build_source_graph snap cutoff g0).nodes) (hs : n.2.isSome) :
    n.1 ∈ activeIds snap := by
  unfold build_source_graph at h
  rcases mem_entries_weightFold _ _ h with h2 | h2
  · rcases mem_entries_addNodeFold _ _ h2 with h3 | ⟨s, hs', hn⟩
    · simp at h3
    · rw [hn]
      exact List.mem_map_of_mem _ hs'
  · rw [h2] at hs
    simp at hs

theorem find?_nodes_nodup {ns : List (String × Option NodeAttrs)}
    {n : String × Option NodeAttrs}
    (hnd : (ns.map Prod.fst).Nodup) (h : n ∈ ns) :
    ns.find? (fun m => decide (m.1 = n.1)) = some n := by
  induction ns with
  | nil => simp at h
  | cons e rest ih =>
      rcases List.mem_cons.mp h with rfl | h
      · simp [List.find?_cons]
      · simp only [List.map_cons, List.nodup_cons] at hnd
        have hne : ¬(e.1 = n.1) := by
          intro hc
          exact hnd.1 (hc ▸ List.mem_map_of_mem Prod.fst h)
        simp [List.find?_cons, hne, ih hnd.2 h]

/-- **C10.** The node set of the built source graph is the union of
the active sources and the owning-source ids of counted propagation
pairs; a participating node that is not an active source is present
without attributes; and for every emitted superspreader record of an
attribute-less node, `find_superspreaders` substitutes the defaults
(name = node id, source_type = "unknown", is_doppelganger = false). -/
theorem spec_C10 (snap : Snapshot) (cutoff : Int) (g0 : SourceGraph) (top_n : ℕ)
    (prE betE : Except Unit (String → ℚ)) :
    (∀ a, a ∈ nodeIds (build_source_graph snap cutoff g0) ↔
      a ∈ activeIds snap ∨
        ∃ b, 0 < pairCount snap cutoff a b ∨ 0 < pairCount snap cutoff b a)
    ∧ (∀ a, a ∈ nodeIds (build_source_graph snap cutoff g0) →
        a ∉ activeIds snap →
        nodeAttr (build_source_graph snap cutoff g0) a = some none)
    ∧ (∀ r ∈ find_superspreaders (build_source_graph snap cutoff g0) top_n prE betE,
        nodeAttr (build_source_graph snap cutoff g0) r.id = some none →
        r.name = r.id ∧ r.source_type = "unknown" ∧ r.is_doppelganger = false) := by
  refine ⟨?_, ?_, ?_⟩
  · intro a
    simp only [nodeIds, build_source_graph]
    rw [mem_keys_weightFold, mem_keys_addNodeFold]
    have hact : (a ∈ (({ nodes := [], edges := [] } : SourceGraph)).nodes.map Prod.fst ∨
        ∃ s ∈ snap.sources.filter (·.is_active), a = s.id) ↔ a ∈ activeIds snap := by
      constructor
      · rintro (hx | ⟨s, hs, rfl⟩)
        · simp at hx
        · exact List.mem_map_of_mem _ hs
      · intro hx
        obtain ⟨s, hs, hsa⟩ := List.mem_map.mp hx
        exact Or.inr ⟨s, hs, hsa.symm⟩
    rw [hact]
    have hpair : (∃ e ∈ (windowProps snap cutoff).foldl (countStep snap) [],
        a = e.1.1 ∨ a = e.1.2) ↔
        ∃ b, 0 < pairCount snap cutoff a b ∨ 0 < pairCount snap cutoff b a := by
      constructor
      · rintro ⟨e, he, hx | hx⟩
        · refine ⟨e.1.2, Or.inl ?_⟩
          have hk := hasKey_of_mem he
          have := (hasKey_countFold snap (windowProps snap cutoff) [] e.1).mp hk
          simp only [hasKey, Bool.false_eq_true, false_or] at this
          unfold pairCount
          rw [hx]
          simpa using this
        · refine ⟨e.1.1, Or.inr ?_⟩
          have hk := hasKey_of_mem he
          have := (hasKey_countFold snap (windowProps snap cutoff) [] e.1).mp hk
          simp only [hasKey, Bool.false_eq_true, false_or] at this
          unfold pairCount
          rw [hx]
          simpa using this
      · rintro ⟨b, hb | hb⟩
        · have hk : hasKey ((windowProps snap cutoff).foldl (countStep snap) [])
              (a, b) = true := by
            rw [hasKey_countFold]
            exact Or.inr hb
          obtain ⟨v, hv⟩ := exists_of_hasKey hk
          exact ⟨((a, b), v), hv, Or.inl rfl⟩
        · have hk : hasKey ((windowProps snap cutoff).foldl (countStep snap) [])
              (b, a) = true := by
            rw [hasKey_countFold]
            exact Or.inr hb
          obtain ⟨v, hv⟩ := exists_of_hasKey hk
          exact ⟨((b, a), v), hv, Or.inr rfl⟩
    rw [hpair]
  · intro a hmem hnact
    obtain ⟨n, hn, hfst⟩ := List.mem_map.mp hmem
    have hfind := find?_nodes_nodup (nodup_keys_build snap cutoff g0) hn
    have hattr : nodeAttr (build_source_graph snap cutoff g0) a = some n.2 := by
      unfold nodeAttr
      rw [← hfst, hfind]
      rfl
    rcases ha2 : n.2 with _ | x
    · rw [hattr, ha2]
    · exfalso
      apply hnact
      rw [← hfst]
      exact attrs_active_build snap cutoff g0 hn (by rw [ha2]; rfl)
  · intro r hr hattr
    obtain ⟨n, hn, rfl⟩ := mem_find_superspreaders hr
    have hfind := find?_nodes_nodup (nodup_keys_build snap cutoff g0) hn
    have hattr2 : nodeAttr (build_source_graph snap cutoff g0) n.1 = some n.2 := by
      unfold nodeAttr
      rw [hfind]
      rfl
    have hattr3 : nodeAttr (build_source_graph snap cutoff g0) n.1 = some none :=
      hattr
    have hnone : n.2 = none := by
      have := hattr2.symm.trans hattr3
      simpa using this
    rw [hnone]
    exact ⟨rfl, rfl, rfl⟩

/-- The concrete value of the ranking on `graphInactive` under the
zero centrality dictionaries. -/
theorem find_superspreaders_graphInactive :
    find_superspreaders graphInactive 5 (.ok fun _ => 0) (.ok fun _ => 0) =
      [recAlpha, recB] := by
  have hA : outDegree graphInactive "A" = 1 := by decide
  have hB : outDegree graphInactive "B" = 0 := by decide
  have hnodes : graphInactive.nodes = [("A", some (sourceAttrs srcAlpha)), ("B", none)] :=
    rfl
  norm_num [find_superspreaders, hnodes, mkSpreader, recAlpha, recB,
    hA, hB, List.insertionSort, List.orderedInsert, scoreGE, centralityD,
    sourceAttrs, srcAlpha, orDefault]

/-- **C10 (witness).** Instantiation on `snapInactive`: the inactive
source `B` participates in propagation, becomes an attribute-less node
of the built graph, and its emitted record carries the defaults. -/
theorem spec_C10_witness :
    nodeAttr (build_source_graph snapInactive 0 emptyState.source_graph) "B" =
      some none
    ∧ recB.name = recB.id ∧ recB.source_type = "unknown"
    ∧ recB.is_doppelganger = false := by
  have h10 := spec_C10 snapInactive 0 emptyState.source_graph 5
    (.ok fun _ => 0) (.ok fun _ => 0)
  refine ⟨h10.2.1 "B" (by decide) (by decide), h10.2.2 recB ?_ (by decide)⟩
  rw [show build_source_graph snapInactive 0 emptyState.source_graph =
      graphInactive from by decide]
  rw [find_superspreaders_graphInactive]
  exact List.mem_cons_of_mem _ (List.mem_singleton_self recB)

end Veillanalyse
